import Mathlib

/-!
Shallow embedding of the opine HTTP framework's response finalization
(`src/response.ts`) and static file middleware
(`src/middleware/serveStatic.ts`), with theorems settling the spec claims.

Machine-level collaborators (the web `Headers` object, the `media_types`
MIME lookup, the `vary` helper, the transport `req.respond`) are modelled
at their interface boundary.  JS value-shape dispatch (`typeof`,
truthiness) is embedded explicitly.
-/

namespace Opine

/-! ## Headers: model of the web `Headers` object (case-insensitive keys).

Keys are stored lowercased; every public operation lowercases its field
name first, exactly as the WHATWG `Headers` class does. -/

/-! String primitives implemented by structural recursion over the
character list, so that every definition in this development evaluates by
kernel reduction (the core position-based `String` loops do not). -/

/-- JS `toLowerCase` / the lowercasing the `Headers` class applies. -/
def strLower (s : String) : String := String.mk (s.toList.map Char.toLower)

/-- Whitespace trimming of a header token. -/
def strTrim (s : String) : String :=
  String.mk (((s.toList.dropWhile Char.isWhitespace).reverse.dropWhile
    Char.isWhitespace).reverse)

def strStartsWith (s p : String) : Bool := p.toList.isPrefixOf s.toList

def strEndsWith (s p : String) : Bool := p.toList.reverse.isPrefixOf s.toList.reverse

/-- Split a character list on a separator character. -/
def splitOnChar (sep : Char) : List Char → List (List Char)
  | [] => [[]]
  | c :: t =>
      if c = sep then [] :: splitOnChar sep t
      else
        match splitOnChar sep t with
        | [] => [[c]]
        | h :: r => (c :: h) :: r

abbrev HeadersT := List (String × String)

/-- Raw lookup of an exact (already lowercased) key. -/
def hfind : HeadersT → String → Option String
  | [], _ => none
  | (k, v) :: t, key => if k = key then some v else hfind t key

/-- Raw removal of an exact (already lowercased) key. -/
def herase : HeadersT → String → HeadersT
  | [], _ => []
  | (k, v) :: t, key => if k = key then herase t key else (k, v) :: herase t key

/-- Raw insert of an exact (already lowercased) key, replacing any
previous value for it. -/
def hinsert (h : HeadersT) (key value : String) : HeadersT :=
  (key, value) :: herase h key

/-- Model of `Headers.get`: case-insensitive, `none` when absent. -/
def headersGet (h : HeadersT) (field : String) : Option String :=
  hfind h (strLower field)

/-- Model of `Headers.set`: case-insensitive, replaces any previous value. -/
def headersSet (h : HeadersT) (field value : String) : HeadersT :=
  hinsert h (strLower field) value

/-- Model of `Headers.delete`: case-insensitive. -/
def headersDelete (h : HeadersT) (field : String) : HeadersT :=
  herase h (strLower field)

theorem hfind_herase_self (h : HeadersT) (k : String) :
    hfind (herase h k) k = none := by
  induction h with
  | nil => rfl
  | cons p t ih =>
      obtain ⟨a, b⟩ := p
      by_cases hp : a = k
      · simpa [herase, hp] using ih
      · simpa [herase, hfind, hp] using ih

theorem hfind_herase_ne (h : HeadersT) (k k' : String) (hne : k' ≠ k) :
    hfind (herase h k) k' = hfind h k' := by
  induction h with
  | nil => rfl
  | cons p t ih =>
      obtain ⟨a, b⟩ := p
      have hkk : ¬(k = k') := fun hc => hne hc.symm
      by_cases hp : a = k
      · simpa [herase, hfind, hp, hkk] using ih
      · by_cases hq : a = k'
        · simp [herase, hfind, hp, hq, hne]
        · simpa [herase, hfind, hp, hq] using ih

theorem hfind_hinsert_self (h : HeadersT) (k v : String) :
    hfind (hinsert h k v) k = some v := by
  simp [hinsert, hfind]

theorem hfind_hinsert_ne (h : HeadersT) (k v k' : String) (hne : k' ≠ k) :
    hfind (hinsert h k v) k' = hfind h k' := by
  have hkk : k ≠ k' := fun hc => hne hc.symm
  simp only [hinsert, hfind, if_neg hkk]
  exact hfind_herase_ne h k k' hne

/-! ## Decimal rendering and JSON encoding

`stringify` in `src/utils/stringify.ts` is not under `src/`; the spec says
it "serializes with configurable replacer/indentation/unicode-escaping
settings".  The model below fixes those settings at their defaults (no
replacer, no indentation, no escaping), where serialization is standard
JSON encoding. -/

/-- Decimal digits of a natural number, fuel-structured so that it
reduces by kernel computation; `fuel` bounds the digit count. -/
def natStrAux : Nat → Nat → String
  | 0, _ => ""
  | fuel + 1, n =>
      if n < 10 then String.singleton (Nat.digitChar n)
      else natStrAux fuel (n / 10) ++ String.singleton (Nat.digitChar (n % 10))

/-- Decimal rendering of a natural number (JS `String(n)` for n ≥ 0). -/
def natStr (n : Nat) : String := natStrAux (n + 1) n

theorem natStrAux_length_pos (fuel n : Nat) : 0 < (natStrAux (fuel + 1) n).length := by
  rw [natStrAux]
  split
  · simp
  · rw [String.length_append]
    have h1 : (String.singleton (Nat.digitChar (n % 10))).length = 1 := by simp
    omega

theorem natStr_length_pos (n : Nat) : 0 < (natStr n).length :=
  natStrAux_length_pos n n

/-- Decimal rendering of an integer (JS `String(n)` for integral numbers). -/
def intStr : Int → String
  | .ofNat m => natStr m
  | .negSucc m => "-" ++ natStr (m + 1)

theorem intStr_length_pos (n : Int) : 0 < (intStr n).length := by
  cases n with
  | ofNat m => exact natStr_length_pos m
  | negSucc m =>
      rw [intStr, String.length_append]
      have := natStr_length_pos (m + 1)
      omega

/-- A JSON value.  Numbers are restricted to the integral case, which is
all the spec's examples exercise. -/
inductive Json where
  | null
  | bool (b : Bool)
  | num (n : Int)
  | str (s : String)
  | arr (elems : List Json)
  | obj (fields : List (String × Json))

/-- Escaping of one character inside a JSON string literal. -/
def jsonEscapeChar (c : Char) : String :=
  if c = '"' then "\\\"" else if c = '\\' then "\\\\" else String.singleton c

def strConcat : List String → String
  | [] => ""
  | s :: rest => s ++ strConcat rest

/-- JSON encoding of a string literal. -/
def jsonStrEnc (s : String) : String :=
  "\"" ++ strConcat (s.toList.map jsonEscapeChar) ++ "\""

mutual
/-- Standard JSON encoding (`JSON.stringify` at default settings). -/
def jsonEncode : Json → String
  | .null => "null"
  | .bool true => "true"
  | .bool false => "false"
  | .num n => intStr n
  | .str s => jsonStrEnc s
  | .arr es => "[" ++ jsonEncodeList es ++ "]"
  | .obj fs => "\x7b" ++ jsonEncodeFields fs ++ "\x7d"

def jsonEncodeList : List Json → String
  | [] => ""
  | [j] => jsonEncode j
  | j :: rest => jsonEncode j ++ "," ++ jsonEncodeList rest

def jsonEncodeFields : List (String × Json) → String
  | [] => ""
  | [(k, v)] => jsonStrEnc k ++ ":" ++ jsonEncode v
  | (k, v) :: rest => jsonStrEnc k ++ ":" ++ jsonEncode v ++ "," ++ jsonEncodeFields rest
end

theorem jsonEncode_length_pos (j : Json) : 0 < (jsonEncode j).length := by
  cases j with
  | null => decide
  | bool b => cases b <;> decide
  | num n => rw [jsonEncode]; exact intStr_length_pos n
  | str s =>
      rw [jsonEncode, jsonStrEnc, String.length_append, String.length_append]
      have : ("\"" : String).length = 1 := by decide
      omega
  | arr es =>
      rw [jsonEncode, String.length_append, String.length_append]
      have : ("[" : String).length = 1 := by decide
      omega
  | obj fs =>
      rw [jsonEncode, String.length_append, String.length_append]
      have : ("\x7b" : String).length = 1 := by decide
      omega

theorem jsonEncode_ne_empty (j : Json) : jsonEncode j ≠ "" := by
  intro hc
  have h := jsonEncode_length_pos j
  rw [hc] at h
  simp at h

/-- Modelled from the spec: `stringify` (`src/utils/stringify.ts`, not under
`src/`) "serializes with configurable replacer/indentation/unicode-escaping
settings"; at the default settings used throughout this development it is
standard JSON encoding. -/
def stringify (j : Json) : String := jsonEncode j

/-! ## Requests, app settings, and the Response object (`src/response.ts`) -/

/-- A query-string value as produced by the query parser: a single string
or an array of strings. -/
inductive QueryVal where
  | one (s : String)
  | many (ss : List String)
deriving DecidableEq, Repr

/-- The slice of the request object that `Response` consumes: the method,
the computed freshness flag (`req.fresh`), and the parsed query. -/
structure Req where
  method : String := "GET"
  fresh : Bool := false
  query : List (String × QueryVal) := []

/-- The `chunk` argument of `Response.etag`: a string, a `Uint8Array`, or
a `Deno.FileInfo` (which has a `size` field but no `length` property). -/
inductive EtagInput where
  | str (s : String)
  | bytes (bs : List Nat)
  | fileInfo (size : Nat) (mtime : Option Nat)

/-- The JS `length` property of an `EtagInput`: `undefined` on a
`Deno.FileInfo`. -/
def EtagInput.jsLength : EtagInput → Option Nat
  | .str s => some s.length
  | .bytes bs => some bs.length
  | .fileInfo _ _ => none

/-- JS `typeof` of an optionally-present number-valued property. -/
def jsTypeofNum : Option Nat → String
  | some _ => "number"
  | none => "undefined"

/-- JS truthiness of a string: every non-empty string is truthy. -/
def jsTruthyStr (s : String) : Bool := s ≠ ""

/-- The application settings `Response` reads: `app.get("etag fn")` and
`app.get("jsonp callback name")`.  The JSON serializer settings are fixed
at their defaults (see `stringify`). -/
structure AppSettings where
  etagFn : Option (EtagInput → String) := none
  jsonpCallbackName : String := "callback"

/-- A `DenoResponseBody`: string, `Uint8Array`, or `Deno.Reader`. -/
inductive Chunk where
  | str (s : String)
  | bytes (bs : List Nat)
  | reader (id : Nat)
deriving DecidableEq, Repr

/-- JS truthiness of a `DenoResponseBody` value: only the empty string is
falsy; array and reader objects are always truthy. -/
def chunkTruthy : Chunk → Bool
  | .str s => s ≠ ""
  | .bytes _ => true
  | .reader _ => true

/-- A snapshot of the response at one `req.respond(this)` call: what the
transport transmits. -/
structure Transmitted where
  status : Nat
  headers : HeadersT
  body : Option Chunk
deriving DecidableEq, Repr

/-- The `Response` object of `src/response.ts`: status, headers and body
slot, plus `sent`, the transport-side record of the `req.respond(this)`
calls made so far (the out-of-scope transport transmits once per call). -/
structure Response where
  status : Nat := 200
  headers : HeadersT := []
  body : Option Chunk := none
  sent : List Transmitted := []
deriving DecidableEq, Repr

/-- Embedding of `Response.get`: `this.headers.get(field.toLowerCase()) || ""` (the
`Headers` model already lowercases its key, absorbing the code's explicit
`toLowerCase`). -/
def Response.get (r : Response) (field : String) : String :=
  (headersGet r.headers field).getD ""

/-- Embedding of `Response.type`: `this.headers.set("content-type", contentType(type) || "")`. -/
def Response.type (r : Response) (t : String) (contentTypeLookup : String → Option String) : Response :=
  { r with headers := headersSet r.headers "content-type" ((contentTypeLookup t).getD "") }

/-- Embedding of `Response.set`: lowercases the field; delegates `content-type` to
`this.type(value)`; otherwise stores the raw value under the lowercased
field (the code passes the lowercased field to `Headers.set`, which
lowercases again; the model's `headersSet` performs that single effective
lowering). -/
def Response.set (r : Response) (field value : String) (ctLookup : String → Option String) : Response :=
  if strLower field = "content-type" then r.type value ctLookup
  else { r with headers := headersSet r.headers field value }

/-- Embedding of `Response.unset`: `this.headers.delete(field)`. -/
def Response.unset (r : Response) (field : String) : Response :=
  { r with headers := headersDelete r.headers field }

/-- Embedding of `Response.setStatus`. -/
def Response.setStatus (r : Response) (code : Nat) : Response :=
  { r with status := code }

/-- Embedding of `Response.end`: `if (body) this.body = body; await this.req.respond(this)`.
Note the truthiness test: an empty-string body does not overwrite the body
slot, and every call unconditionally performs one `respond`. -/
def Response.end' (r : Response) (body : Option Chunk) : Response :=
  let r' := match body with
    | some c => if chunkTruthy c then { r with body := some c } else r
    | none => r
  { r' with sent := r'.sent ++ [⟨r'.status, r'.headers, r'.body⟩] }

/-- Model of the external `media_types` `contentType` collaborator
(`deps.ts`): a MIME lookup returning a full content-type (with charset for
text types) for known type names and extensions, `undefined` otherwise.
Only entries the claims exercise are tabulated. -/
def contentTypeImpl (t : String) : Option String :=
  if t = "application/json" then some "application/json; charset=utf-8"
  else if t = "text/javascript" then some "text/javascript; charset=utf-8"
  else if t = "html" ∨ t = ".html" ∨ t = "text/html" then some "text/html; charset=utf-8"
  else if t = "bin" ∨ t = "application/octet-stream" then some "application/octet-stream"
  else if t = "txt" ∨ t = ".txt" ∨ t = "text/plain" then some "text/plain; charset=utf-8"
  else if t = ".pdf" ∨ t = "application/pdf" then some "application/pdf"
  else none

/-- Embedding of `Response.etag` (`src/response.ts` lines 173-185), embedded with the
code's guard exactly as written: `typeof etagFn === "function" &&
typeof (chunk as any).length`.  The second conjunct is the JS truthiness
of the *string* returned by `typeof`, which is never empty. -/
def Response.etag (app : AppSettings) (r : Response) (chunk : EtagInput) : Response :=
  match app.etagFn with
  | some etagFn =>
      if jsTruthyStr (jsTypeofNum chunk.jsLength) then
        if etagFn chunk ≠ "" then r.set "ETag" (etagFn chunk) contentTypeImpl else r
      else r
  | none => r

/-- Comma-splitting of a header value, character by character. -/
def splitCommaChars : List Char → List (List Char) := splitOnChar ','

/-- The trimmed comma-separated tokens of a `Vary` header value. -/
def varyTokens (cur : String) : List String :=
  (splitCommaChars cur.toList).map (fun cs => strTrim (String.mk cs))

/-- Model of the external `vary` collaborator (`deps.ts`): appends `field`
to the `Vary` header unless (case-insensitively) already listed or the
header contains `*`. -/
def varyAdd (h : HeadersT) (field : String) : HeadersT :=
  match headersGet h "vary" with
  | none => headersSet h "vary" field
  | some cur =>
      if cur = "" then headersSet h "vary" field
      else if strLower field ∈ (varyTokens cur).map strLower
          ∨ "*" ∈ varyTokens cur then h
      else headersSet h "vary" (cur ++ ", " ++ field)

/-- The field is covered by the response's `Vary` header: listed
(case-insensitively) among its comma-separated tokens, or subsumed by a
`*` token. -/
def VaryCovers (h : HeadersT) (field : String) : Prop :=
  match headersGet h "vary" with
  | none => False
  | some cur => strLower field ∈ (varyTokens cur).map strLower
      ∨ "*" ∈ varyTokens cur

instance (h : HeadersT) (f : String) : Decidable (VaryCovers h f) :=
  match hv : headersGet h "vary" with
  | none => .isFalse (by simp [VaryCovers, hv])
  | some cur =>
      decidable_of_iff
        (strLower f ∈ (varyTokens cur).map strLower ∨ "*" ∈ varyTokens cur)
        (by simp [VaryCovers, hv])

/-- Embedding of `Response.vary`. -/
def Response.vary (r : Response) (field : String) : Response :=
  { r with headers := varyAdd r.headers field }

/-! ## The send pipeline -/

/-- A thrown JS error. -/
inductive JsError where
  | typeError (msg : String)
deriving DecidableEq, Repr

/-- Line 487: `if (typeof chunk === "string" && !this.get("Content-Type"))
this.type("html")`. -/
def sendTypeStep (r : Response) (chunk : Chunk) : Response :=
  match chunk with
  | .str _ => if r.get "Content-Type" = "" then r.type "html" contentTypeImpl else r
  | _ => r

/-- Lines 491-496: `if (!this.get("ETag") && (typeof chunk === "string" ||
chunk instanceof Uint8Array)) this.etag(chunk)`. -/
def sendEtagStep (app : AppSettings) (r : Response) (chunk : Chunk) : Response :=
  if r.get "ETag" = "" then
    match chunk with
    | .str s => r.etag app (.str s)
    | .bytes bs => r.etag app (.bytes bs)
    | .reader _ => r
  else r

/-- The tail of `Response.send` (`src/response.ts` lines 487-516), shared
by every classification branch once `chunk` is fixed: default text
content-type for a string chunk, ETag computation, the freshness check,
204/304 entity stripping, HEAD handling, and the terminal `end`. -/
def Response.sendCore (app : AppSettings) (req : Req) (r : Response) (chunk : Chunk) : Response :=
  let r := sendTypeStep r chunk
  let r := sendEtagStep app r chunk
  let r := if req.fresh then r.setStatus 304 else r
  let step : Response × Chunk :=
    if r.status = 204 ∨ r.status = 304 then
      (((r.unset "Content-Type").unset "Content-Length").unset "Transfer-Encoding",
        Chunk.str "")
    else (r, chunk)
  if req.method = "HEAD" then step.1.end' none else step.1.end' (some step.2)

/-- Embedding of `Response.json` (lines 294-306): stringify the body, default the
content-type to JSON when unset, and delegate to `send` with the resulting
string — whose string branch is exactly `sendCore`. -/
def Response.json (app : AppSettings) (req : Req) (r : Response) (body : Json) : Response :=
  let body' := stringify body
  let r := if r.get "Content-Type" = "" then r.type "application/json" contentTypeImpl else r
  r.sendCore app req (.str body')

/-- A `ResponseBody` argument of `Response.send`, classified the way the
code's `typeof` switch sees it: strings, `Uint8Array`s, readers (values
with a `read` function), booleans, numbers, and any other object value —
including `null`, whose JS `typeof` is `"object"`. -/
inductive Body where
  | str (s : String)
  | binary (bs : List Nat)
  | reader (id : Nat)
  | boolean (b : Bool)
  | number (n : Int)
  | jsObject (j : Json)

/-- Embedding of `Response.send` (lines 461-517): the body-classification switch.
Strings become the chunk; booleans and numbers return `this.json(body)`;
`Uint8Array`s and readers get a binary content-type default.  Any other
object is probed with `typeof (body as Deno.Reader).read`, which on
`body = null` is a property access on `null` and throws a `TypeError`;
non-null objects fall through to `this.json(body)`. -/
def Response.send (app : AppSettings) (req : Req) (r : Response) (body : Body) :
    Except JsError Response :=
  match body with
  | .str s => .ok (r.sendCore app req (.str s))
  | .boolean b => .ok (r.json app req (.bool b))
  | .number n => .ok (r.json app req (.num n))
  | .binary bs =>
      let r := if r.get "Content-Type" = "" then r.type "bin" contentTypeImpl else r
      .ok (r.sendCore app req (.bytes bs))
  | .reader id =>
      let r := if r.get "Content-Type" = "" then r.type "bin" contentTypeImpl else r
      .ok (r.sendCore app req (.reader id))
  | .jsObject j =>
      match j with
      | .null => .error (.typeError "Cannot read property \x27read\x27 of null")
      | _ => .ok (r.json app req j)

/-- The character class kept by the jsonp callback sanitizer, the regex
`[^\[\]\w$.]` replaced by the empty string: `[`, `]`, ASCII word
characters, `$` and `.` survive. -/
def jsonpSafeChar (c : Char) : Bool :=
  c = '[' ∨ c = ']' ∨ c = '$' ∨ c = '.' ∨ c = '_' ∨ c.isAlpha ∨ c.isDigit

/-- Embedding of `callback.replace(/[^\[\]\w$.]/g, "")`. -/
def sanitizeJsonpCallback (s : String) : String :=
  String.mk (s.toList.filter jsonpSafeChar)

/-- Embedding of `body.replace(/ /g, "\\u2028").replace(/ /g, "\\u2029")`. -/
def escapeJsSeparators (s : String) : String :=
  strConcat (s.toList.map fun c =>
    if c = Char.ofNat 0x2028 then "\\u2028"
    else if c = Char.ofNat 0x2029 then "\\u2029"
    else String.singleton c)

/-- The guarded jsonp invocation script (lines 338-347): sanitized
callback, separator-escaped payload, `/**/` comment guard. -/
def jsonpScriptBody (cb payload : String) : String :=
  "/**/ typeof " ++ sanitizeJsonpCallback cb ++ " === \x27function\x27 && "
    ++ sanitizeJsonpCallback cb ++ "(" ++ escapeJsSeparators payload ++ ");"

/-- Association lookup in the parsed query (`this.req.query[name]`). -/
def qfind : List (String × QueryVal) → String → Option QueryVal
  | [], _ => none
  | (k, v) :: t, key => if k = key then some v else qfind t key

/-- Embedding of `if (Array.isArray(callback)) callback = callback[0]` — an empty array
leaves `callback` undefined. -/
def jsonpCallbackValue : Option QueryVal → Option String
  | some (.one s) => some s
  | some (.many ss) => ss.head?
  | none => none

/-- Embedding of `Response.jsonp` (lines 320-354).  With a present, non-empty callback
query parameter: nosniff, script content-type, sanitized callback,
separator-escaped payload, and the `/**/`-guarded invocation.  Otherwise
the nosniff and JSON content-type headers are set only when no
content-type is present.  Either way the resulting string goes to `send`. -/
def Response.jsonp (app : AppSettings) (req : Req) (r : Response) (body : Json) : Response :=
  let body' := stringify body
  match jsonpCallbackValue (qfind req.query app.jsonpCallbackName) with
  | some cb =>
      if cb.length ≠ 0 then
        let r := r.set "X-Content-Type-Options" "nosniff" contentTypeImpl
        let r := r.type "text/javascript" contentTypeImpl
        r.sendCore app req (.str (jsonpScriptBody cb body'))
      else
        let r := if r.get "Content-Type" = "" then
            ((r.set "X-Content-Type-Options" "nosniff" contentTypeImpl).set
              "Content-Type" "application/json" contentTypeImpl)
          else r
        r.sendCore app req (.str body')
  | none =>
      let r := if r.get "Content-Type" = "" then
          ((r.set "X-Content-Type-Options" "nosniff" contentTypeImpl).set
            "Content-Type" "application/json" contentTypeImpl)
        else r
      r.sendCore app req (.str body')

/-! ## File transfer: `sendFile` and `download` -/

/-- Model of the external `Date#toUTCString` at its interface boundary. -/
def toUTCString (t : Nat) : String := "UTC(" ++ natStr t ++ ")"

/-- Model of the external path collaborator `basename` (`deps.ts`). -/
def pathBasename (p : String) : String :=
  String.mk (((splitOnChar '/' p.toList).reverse).headD [])

/-- Model of the external path collaborator `extname` (`deps.ts`): the
last extension of the basename, with its dot; empty for extensionless
names and dotfiles. -/
def pathExtname (p : String) : String :=
  match splitOnChar '.' (pathBasename p).toList with
  | [] => ""
  | h :: t => if h = [] ∨ t = [] then "" else "." ++ String.mk ((t.reverse).headD [])

/-- Model of the external `fromFileUrl` collaborator. -/
def fromFileUrl (u : String) : String :=
  if strStartsWith u "file://" then String.mk (u.toList.drop 7) else u

/-- Modelled from the spec: `contentDisposition` (`src/utils/contentDisposition.ts`,
not under `src/`) renders a `Content-Disposition` value of the given type
"with the resolved filename". -/
def contentDisposition (dtype filename : String) : String :=
  dtype ++ "; filename=\"" ++ filename ++ "\""

/-- What `Deno.stat`/`Deno.readFile` see for one path. -/
structure FileData where
  bytes : List Nat := []
  size : Nat := 0
  mtime : Option Nat := none
  isDirectory : Bool := false
deriving DecidableEq, Repr

/-- The filesystem collaborator: path → metadata/contents, `none` meaning
`stat`/`readFile` reject. -/
abbrev FS := List (String × FileData)

def ffind : FS → String → Option FileData
  | [], _ => none
  | (k, v) :: t, key => if k = key then some v else ffind t key

/-- The header mutations of `sendFile` before the final `send`:
`Last-Modified` from mtime, the ETag default from the stat metadata, the
content-type from the extension, and the binary content-type default that
`send` applies to the `Uint8Array` payload. -/
def sendFileHeaderSteps (app : AppSettings) (r : Response) (path : String)
    (fd : FileData) : Response :=
  let r := match fd.mtime with
    | some t => r.set "Last-Modified" (toUTCString t) contentTypeImpl
    | none => r
  let r := if r.get "ETag" = "" then r.etag app (.fileInfo fd.size fd.mtime) else r
  let r := r.type (pathExtname path) contentTypeImpl
  if r.get "Content-Type" = "" then r.type "bin" contentTypeImpl else r

/-- Embedding of `Response.sendFile` (lines 537-552): read bytes and stat, set
`Last-Modified` from mtime, default the ETag from the stat metadata, set
the content-type from the extension, then delegate to `send` with the
byte payload (whose `Uint8Array` branch applies the binary content-type
default before `sendCore`).  A read/stat failure propagates as an error
carrying the response state at the throw. -/
def Response.sendFile (fs : FS) (app : AppSettings) (req : Req) (r : Response)
    (path : String) : Except (String × Response) Response :=
  let path := if strStartsWith path "file:" then fromFileUrl path else path
  match ffind fs path with
  | none => .error ("NotFound: " ++ path, r)
  | some fd =>
      if fd.isDirectory then .error ("IsADirectory: " ++ path, r)
      else .ok ((sendFileHeaderSteps app r path fd).sendCore app req (.bytes fd.bytes))

/-- Embedding of `Response.download` (lines 131-147): set the attachment
`Content-Disposition` (JS `filename || path` falls back to the path on
`undefined` or the empty string), delegate to `sendFile`, and on failure
remove the just-set header before re-throwing. -/
def Response.download (fs : FS) (app : AppSettings) (req : Req) (r : Response)
    (path : String) (filename : Option String) : Except (String × Response) Response :=
  let resolved := match filename with
    | some f => if f ≠ "" then f else path
    | none => path
  let r := r.set "Content-Disposition" (contentDisposition "attachment" (pathBasename resolved))
    contentTypeImpl
  match r.sendFile fs app req path with
  | .ok r' => .ok r'
  | .error (msg, rE) => .error (msg, rE.unset "Content-Disposition")

/-! ## Content negotiation: `format` -/

/-- Modelled from the spec: `normalizeType` (`src/utils/normalizeType.ts`,
not under `src/`) maps extension shorthands to "canonicalized MIME types"
(`json` → `application/json`, `html` → `text/html`, …) and passes full
types through. -/
def normalizeTypeValue (t : String) : String :=
  if t.toList.contains '/' then t
  else if t = "json" then "application/json"
  else if t = "html" then "text/html"
  else if t = "text" ∨ t = "txt" then "text/plain"
  else ""

/-- Embedding of `normalizeTypes(keys).map(o => o.value)`. -/
def normalizeTypes (ts : List String) : List String := ts.map normalizeTypeValue

/-- The `obj` argument of `format`: the negotiable keys in insertion
order (the reserved `default` key removed by the destructuring) and
whether a `default` handler was supplied. -/
structure FormatHandlers where
  keys : List String
  hasDefault : Bool := false

/-- Which continuation `format` took: `obj[key](req, this, next)`, the
reserved `fn()`, or `next(err)` with the synthesized 406 error carrying
the normalized offered types. -/
inductive FormatOutcome where
  | invoked (key : String)
  | invokedDefault
  | nextError (status : Nat) (types : List String)
deriving DecidableEq, Repr

/-- Embedding of `Response.format` (lines 243-269).  `accepts` models
`req.accepts(keys)[0]` (`src/request.ts` is not under `src/`; per the
spec it "computes the best content-type match against the request's
`Accept` negotiation"), returning the first acceptable key or none. -/
def Response.format (accepts : List String → Option String) (r : Response)
    (h : FormatHandlers) : Response × FormatOutcome :=
  let keys := h.keys
  let key := if keys.length > 0 then accepts keys else none
  let r := r.vary "Accept"
  match key with
  | some k =>
      (r.set "Content-Type" (normalizeTypeValue k) contentTypeImpl, .invoked k)
  | none =>
      if h.hasDefault then (r, .invokedDefault)
      else (r, .nextError 406 (normalizeTypes keys))

/-! ## Static file middleware (`src/middleware/serveStatic.ts`) -/

def leadingSlashCount : List Char → Nat
  | [] => 0
  | c :: t => if c = '/' then leadingSlashCount t + 1 else 0

/-- Embedding of `collapseLeadingSlashes` (lines 147-156): count the leading `/`
characters; when more than one, replace the whole run by a single `/`. -/
def collapseLeadingSlashes (str : String) : String :=
  let i := leadingSlashCount str.toList
  if i > 1 then "/" ++ String.mk (str.toList.drop i) else str

/-- Embedding of `createHtmlDocument` (lines 165-176). -/
def createHtmlDocument (title body : String) : String :=
  "<!DOCTYPE html>\n<html lang=\"en\">\n<head>\n<meta charset=\"utf-8\">\n<title>"
    ++ title ++ "</title>\n</head>\n<body>\n<pre>" ++ body ++ "</pre>\n</body>\n</html>\n"

/-- Model of the external `escapeHtml` collaborator (`deps.ts`). -/
def escapeHtml (s : String) : String :=
  strConcat (s.toList.map fun c =>
    if c = '&' then "&amp;"
    else if c = '<' then "&lt;"
    else if c = '>' then "&gt;"
    else if c = '"' then "&quot;"
    else if c = '\x27' then "&#39;"
    else String.singleton c)

/-- Model of the external `encodeUrl` collaborator (`deps.ts`): the
identity on URLs that are already percent-encoded, which is all this
development feeds it. -/
def encodeUrl (s : String) : String := s

/-- Model of the external `join` path collaborator (`deps.ts`): joining
with the empty string resolves the first argument itself. -/
def joinPath (a b : String) : String :=
  if b = "" then a
  else
    let a' := if strEndsWith a "/" then String.mk a.toList.dropLast else a
    let b' := if strStartsWith b "/" then b else "/" ++ b
    a' ++ b'

/-- The node-style parsed URL the middleware reads (`parseUrl` /
`originalUrl` live in `src/utils/parseUrl.ts`, not under `src/`): the
request's original pathname and search. -/
structure ParsedURL where
  pathname : String
  search : String := ""
deriving DecidableEq, Repr

/-- Modelled from the spec: reformatting the amended parsed URL back to a
string (`new URL(originalUrl).toString()` — the Location is "the original
pathname plus a trailing slash"). -/
def ParsedURL.toUrlString (u : ParsedURL) : String := u.pathname ++ u.search

/-- How a static-middleware invocation handed off control. -/
inductive StaticOutcome where
  | next
  | nextError (status : Nat)
  | nextErrorRaw (msg : String)
  | responded
deriving DecidableEq, Repr

/-- The request as the static middleware sees it: the transport slice
plus the mount-relative parsed pathname and the original URL. -/
structure StaticReq where
  base : Req := {}
  pathname : String
  originalUrl : ParsedURL

/-- The listener of `createRedirectDirectoryListener` (lines 202-241),
embedded with its JS `this` binding explicit: the function reads
`this.req`, so `thisReq` is the value of `this` at the call (`none` for a
plain function call, where `this` is `undefined` in module code and the
property access throws).  Past that read, the 301 response is built: the
`Location` is the original pathname plus a trailing slash with leading
slashes collapsed, with `Content-Security-Policy`,
`X-Content-Type-Options: nosniff`, and the minimal HTML body, sent via
`res.send` (a string, so `sendCore`). -/
def redirectListener (app : AppSettings) (req : Req) (thisReq : Option ParsedURL)
    (r : Response) (forwardError : Bool) (fullPath : String) :
    Except JsError (Response × StaticOutcome) :=
  if strEndsWith fullPath "/" then
    if forwardError then .ok (r, .nextError 404) else .ok (r, .next)
  else
    match thisReq with
    | none => .error (.typeError "Cannot read property \x27req\x27 of undefined")
    | some originalUrl =>
        let originalUrl := { originalUrl with
          pathname := collapseLeadingSlashes (originalUrl.pathname ++ "/") }
        let loc := encodeUrl originalUrl.toUrlString
        let doc := createHtmlDocument "Redirecting"
          ("Redirecting to <a href=\"" ++ escapeHtml loc ++ "\">" ++ escapeHtml loc ++ "</a>")
        let r := r.setStatus 301
        let r := r.set "Content-Security-Policy" "default-src \x27none\x27" contentTypeImpl
        let r := r.set "X-Content-Type-Options" "nosniff" contentTypeImpl
        let r := r.set "Location" loc contentTypeImpl
        .ok (r.sendCore app req (.str doc), .responded)

/-- The listener of `createNotFoundDirectoryListener` (lines 182-196). -/
def notFoundListener (r : Response) (forwardError : Bool) :
    Response × StaticOutcome :=
  if forwardError then (r, .nextError 404) else (r, .next)

/-- Lines 103-108: the mount-relative path, with the special case — a
computed path of exactly `/` while the original URL's pathname lacks a
trailing slash (`originalUrl.pathname.substr(-1) !== "/"`) becomes the
empty string. -/
def staticRelativePath (pathname originalPathname : String) : String :=
  if pathname = "/" ∧ ¬(strEndsWith originalPathname "/") then "" else pathname

/-- Options of `serveStatic`: `fallthrough` and `redirect` default to
true (the `before` hook plays no part in the claims and is omitted). -/
structure StaticOptions where
  fallthrough : Bool := true
  redirect : Bool := true

/-- The handler returned by `serveStatic` (lines 84-140): method filter
with 405 handling, the mount-root special case for a computed path of
`/` without a trailing slash on the original URL, the root join, the stat
with fallthrough/forward on failure, directory dispatch to the configured
listener — invoked as a plain function call, so with `this` undefined —
and the file transfer with fallthrough/forward on failure. -/
def serveStaticHandler (fs : FS) (app : AppSettings) (root : String)
    (opts : StaticOptions) (req : StaticReq) (r : Response) :
    Except JsError (Response × StaticOutcome) :=
  if req.base.method ≠ "GET" ∧ req.base.method ≠ "HEAD" then
    if opts.fallthrough then .ok (r, .next)
    else
      let r := r.setStatus 405
      let r := r.set "Allow" "GET, HEAD" contentTypeImpl
      .ok (r.end' none, .responded)
  else
    let forwardError := !opts.fallthrough
    let rootPath := if strStartsWith root "file:" then fromFileUrl root else root
    let path := staticRelativePath req.pathname req.originalUrl.pathname
    let fullPath := joinPath rootPath path
    match ffind fs fullPath with
    | none =>
        if forwardError then .ok (r, .nextErrorRaw ("NotFound: " ++ fullPath))
        else .ok (r, .next)
    | some fd =>
        if fd.isDirectory then
          if opts.redirect then
            redirectListener app req.base none r forwardError fullPath
          else
            .ok (notFoundListener r forwardError)
        else
          match r.sendFile fs app req.base fullPath with
          | .ok r' => .ok (r', .responded)
          | .error (msg, rE) =>
              if forwardError then .ok (rE, .nextErrorRaw msg)
              else .ok (rE, .next)

/-! ## Lemmas about the header and response operations -/

theorem headersGet_headersSet_self (h : HeadersT) (k v : String) :
    headersGet (headersSet h k v) k = some v :=
  hfind_hinsert_self h (strLower k) v

theorem headersGet_headersSet_ne (h : HeadersT) (k v K : String)
    (hne : strLower K ≠ strLower k) :
    headersGet (headersSet h k v) K = headersGet h K :=
  hfind_hinsert_ne h (strLower k) v (strLower K) hne

theorem headersGet_headersDelete_self (h : HeadersT) (k : String) :
    headersGet (headersDelete h k) k = none :=
  hfind_herase_self h (strLower k)

theorem headersGet_headersDelete_ne (h : HeadersT) (k K : String)
    (hne : strLower K ≠ strLower k) :
    headersGet (headersDelete h k) K = headersGet h K :=
  hfind_herase_ne h (strLower k) (strLower K) hne

theorem type_fields (r : Response) (t : String) (ct : String → Option String) :
    (r.type t ct).status = r.status ∧ (r.type t ct).body = r.body
      ∧ (r.type t ct).sent = r.sent :=
  ⟨rfl, rfl, rfl⟩

theorem set_fields (r : Response) (f v : String) (ct : String → Option String) :
    (r.set f v ct).status = r.status ∧ (r.set f v ct).body = r.body
      ∧ (r.set f v ct).sent = r.sent := by
  unfold Response.set
  split <;> exact ⟨rfl, rfl, rfl⟩

theorem unset_fields (r : Response) (f : String) :
    (r.unset f).status = r.status ∧ (r.unset f).body = r.body
      ∧ (r.unset f).sent = r.sent :=
  ⟨rfl, rfl, rfl⟩

theorem etag_fields (app : AppSettings) (r : Response) (c : EtagInput) :
    (r.etag app c).status = r.status ∧ (r.etag app c).body = r.body
      ∧ (r.etag app c).sent = r.sent := by
  unfold Response.etag
  split
  · split
    · split
      · exact set_fields ..
      · exact ⟨rfl, rfl, rfl⟩
    · exact ⟨rfl, rfl, rfl⟩
  · exact ⟨rfl, rfl, rfl⟩

theorem headersGet_type_self (r : Response) (t : String) (ct : String → Option String) :
    headersGet (r.type t ct).headers "content-type" = some ((ct t).getD "") :=
  headersGet_headersSet_self r.headers "content-type" ((ct t).getD "")

theorem headersGet_type_ne (r : Response) (t : String) (ct : String → Option String)
    (K : String) (hK : strLower K ≠ "content-type") :
    headersGet (r.type t ct).headers K = headersGet r.headers K := by
  refine headersGet_headersSet_ne r.headers "content-type" ((ct t).getD "") K ?_
  rw [show strLower "content-type" = "content-type" from by decide]
  exact hK

theorem headersGet_set_self_other (r : Response) (f v : String)
    (ct : String → Option String) (hf : strLower f ≠ "content-type") :
    headersGet (r.set f v ct).headers f = some v := by
  unfold Response.set
  rw [if_neg hf]
  exact headersGet_headersSet_self r.headers f v

theorem headersGet_set_ct (r : Response) (f v : String)
    (ct : String → Option String) (hf : strLower f = "content-type") :
    headersGet (r.set f v ct).headers "content-type" = some ((ct v).getD "") := by
  unfold Response.set
  rw [if_pos hf]
  exact headersGet_type_self r v ct

theorem headersGet_set_other_ne (r : Response) (f v : String)
    (ct : String → Option String) (K : String)
    (hf : strLower f ≠ "content-type") (hK : strLower K ≠ strLower f) :
    headersGet (r.set f v ct).headers K = headersGet r.headers K := by
  unfold Response.set
  rw [if_neg hf]
  exact headersGet_headersSet_ne r.headers f v K hK

theorem headersGet_set_ne (r : Response) (f v : String)
    (ct : String → Option String) (K : String)
    (hK1 : strLower K ≠ strLower f) (hK2 : strLower K ≠ "content-type") :
    headersGet (r.set f v ct).headers K = headersGet r.headers K := by
  unfold Response.set
  split
  · exact headersGet_type_ne r v ct K hK2
  · exact headersGet_headersSet_ne r.headers f v K hK1

theorem headersGet_unset_self (r : Response) (f : String) :
    headersGet (r.unset f).headers f = none :=
  headersGet_headersDelete_self r.headers f

theorem headersGet_unset_ne (r : Response) (f K : String)
    (hK : strLower K ≠ strLower f) :
    headersGet (r.unset f).headers K = headersGet r.headers K :=
  headersGet_headersDelete_ne r.headers f K hK

theorem headersGet_etag_ne (app : AppSettings) (r : Response) (c : EtagInput)
    (K : String) (hK : strLower K ≠ "etag") :
    headersGet (r.etag app c).headers K = headersGet r.headers K := by
  unfold Response.etag
  split
  · split
    · split
      · refine headersGet_set_other_ne r "ETag" _ contentTypeImpl K (by decide) ?_
        rw [show strLower "ETag" = "etag" from by decide]
        exact hK
      · rfl
    · rfl
  · rfl


theorem sendTypeStep_fields (r : Response) (c : Chunk) :
    (sendTypeStep r c).status = r.status ∧ (sendTypeStep r c).body = r.body
      ∧ (sendTypeStep r c).sent = r.sent := by
  unfold sendTypeStep
  cases c with
  | str s =>
      by_cases hct : r.get "Content-Type" = ""
      · rw [if_pos hct]
        exact type_fields ..
      · rw [if_neg hct]
        exact ⟨rfl, rfl, rfl⟩
  | bytes bs => exact ⟨rfl, rfl, rfl⟩
  | reader id => exact ⟨rfl, rfl, rfl⟩

theorem sendEtagStep_fields (app : AppSettings) (r : Response) (c : Chunk) :
    (sendEtagStep app r c).status = r.status ∧ (sendEtagStep app r c).body = r.body
      ∧ (sendEtagStep app r c).sent = r.sent := by
  unfold sendEtagStep
  by_cases he : r.get "ETag" = ""
  · rw [if_pos he]
    cases c with
    | str s => exact etag_fields ..
    | bytes bs => exact etag_fields ..
    | reader id => exact ⟨rfl, rfl, rfl⟩
  · rw [if_neg he]
    exact ⟨rfl, rfl, rfl⟩

theorem headersGet_sendTypeStep_ne (r : Response) (c : Chunk) (K : String)
    (hK : strLower K ≠ "content-type") :
    headersGet (sendTypeStep r c).headers K = headersGet r.headers K := by
  unfold sendTypeStep
  cases c with
  | str s =>
      by_cases hct : r.get "Content-Type" = ""
      · rw [if_pos hct]
        exact headersGet_type_ne r "html" contentTypeImpl K hK
      · rw [if_neg hct]
  | bytes bs => rfl
  | reader id => rfl

theorem headersGet_sendEtagStep_ne (app : AppSettings) (r : Response) (c : Chunk)
    (K : String) (hK : strLower K ≠ "etag") :
    headersGet (sendEtagStep app r c).headers K = headersGet r.headers K := by
  unfold sendEtagStep
  by_cases he : r.get "ETag" = ""
  · rw [if_pos he]
    cases c with
    | str s => exact headersGet_etag_ne app r (.str s) K hK
    | bytes bs => exact headersGet_etag_ne app r (.bytes bs) K hK
    | reader id => rfl
  · rw [if_neg he]

theorem end'_some_truthy (r : Response) (c : Chunk) (h : chunkTruthy c = true) :
    r.end' (some c) =
      { r with body := some c, sent := r.sent ++ [⟨r.status, r.headers, some c⟩] } := by
  unfold Response.end'
  dsimp only
  rw [h]
  rfl

theorem end'_some_falsy (r : Response) (c : Chunk) (h : chunkTruthy c = false) :
    r.end' (some c) =
      { r with sent := r.sent ++ [⟨r.status, r.headers, r.body⟩] } := by
  unfold Response.end'
  dsimp only
  rw [h]
  rfl

theorem end'_none (r : Response) :
    r.end' none = { r with sent := r.sent ++ [⟨r.status, r.headers, r.body⟩] } := rfl

theorem sendCore_fresh (app : AppSettings) (req : Req) (r : Response) (c : Chunk)
    (hfresh : req.fresh = true) :
    ∃ H : HeadersT,
      r.sendCore app req c =
        { status := 304, headers := H, body := r.body,
          sent := r.sent ++ [⟨304, H, r.body⟩] }
      ∧ headersGet H "Content-Type" = none
      ∧ headersGet H "Content-Length" = none
      ∧ headersGet H "Transfer-Encoding" = none := by
  obtain ⟨hs1, hb1, hn1⟩ := sendTypeStep_fields r c
  obtain ⟨hs2, hb2, hn2⟩ := sendEtagStep_fields app (sendTypeStep r c) c
  refine ⟨((((sendEtagStep app (sendTypeStep r c) c).setStatus 304).unset
      "Content-Type").unset "Content-Length").unset "Transfer-Encoding" |>.headers,
    ?_, ?_, ?_, ?_⟩
  · unfold Response.sendCore
    rw [hfresh]
    by_cases hm : req.method = "HEAD"
    · rw [if_pos hm, ← hb1, ← hb2, ← hn1, ← hn2]
      rfl
    · rw [if_neg hm, ← hb1, ← hb2, ← hn1, ← hn2]
      rfl
  · exact (headersGet_unset_ne _ "Transfer-Encoding" _ (by decide)).trans
      ((headersGet_unset_ne _ "Content-Length" _ (by decide)).trans
        (headersGet_unset_self _ "Content-Type"))
  · exact (headersGet_unset_ne _ "Transfer-Encoding" _ (by decide)).trans
      (headersGet_unset_self _ "Content-Length")
  · exact headersGet_unset_self _ "Transfer-Encoding"

theorem sendCore_normal (app : AppSettings) (req : Req) (r : Response) (c : Chunk)
    (hfresh : req.fresh = false) (hmethod : req.method ≠ "HEAD")
    (h204 : r.status ≠ 204) (h304 : r.status ≠ 304) :
    r.sendCore app req c =
      (sendEtagStep app (sendTypeStep r c) c).end' (some c) := by
  obtain ⟨hs1, _, _⟩ := sendTypeStep_fields r c
  obtain ⟨hs2, _, _⟩ := sendEtagStep_fields app (sendTypeStep r c) c
  unfold Response.sendCore
  rw [hfresh]
  dsimp only
  simp only [Bool.false_eq_true, if_false]
  have hcond : ¬((sendEtagStep app (sendTypeStep r c) c).status = 204
      ∨ (sendEtagStep app (sendTypeStep r c) c).status = 304) := by
    rw [hs2, hs1]
    intro hc
    rcases hc with hc | hc
    · exact h204 hc
    · exact h304 hc
  rw [if_neg hcond, if_neg hmethod]

/-! ## The claims -/

/-- C1, counterexample: calling the terminal end operation a second time
after a first call has transmitted performs a silent second transmission —
the transport receives two responses (here with different bodies), and no
fault is reported. -/
theorem C1_second_end_transmits_again :
    (((({} : Response).end' (some (.str "first"))).end'
        (some (.str "second"))).sent.map Transmitted.body =
      [some (.str "first"), some (.str "second")])
    ∧ ((({} : Response).end' (some (.str "first"))).sent.length = 1) :=
  ⟨rfl, rfl⟩

/-- C1, amended: every call to `Response.end` unconditionally invokes the
transport's `respond` once more — there is no double-send guard, so a
second call performs a second transmission rather than being rejected or
becoming a no-op. -/
theorem C1_every_end_transmits_once_more (r : Response) (body : Option Chunk) :
    (r.end' body).sent.length = r.sent.length + 1 := by
  unfold Response.end'
  cases body with
  | none => simp
  | some c =>
      dsimp only
      cases hc : chunkTruthy c <;> simp [hc]

/-- C5: the guard `typeof etagFn === "function" && typeof (chunk as
any).length` tests the JS truthiness of the *string* returned by `typeof`,
which is never empty, so the length check is vacuous: with an ETag
function configured, `etag` consults it and sets the `ETag` header even
for a `Deno.FileInfo` chunk, which carries no `length` property.  This
evaluates the code at that failing input. -/
theorem C5_etag_consults_fn_for_non_length_bearing_input :
    (EtagInput.fileInfo 5 none).jsLength = none
    ∧ jsTypeofNum (EtagInput.fileInfo 5 none).jsLength = "undefined"
    ∧ jsTruthyStr (jsTypeofNum (EtagInput.fileInfo 5 none).jsLength) = true
    ∧ (Response.etag { etagFn := some (fun _ => "W/\"abc\"") } {}
        (.fileInfo 5 none)).get "ETag" = "W/\"abc\"" :=
  ⟨rfl, rfl, rfl, rfl⟩

/-- C8: when the computed mount-relative path is exactly `/` and the
original URL's pathname does not end with a slash, the static handler
treats the relative path as the empty string, and joining it against the
root directory resolves the mount root itself. -/
theorem C8_static_mount_root_special_case (pathname originalPathname root : String)
    (h1 : pathname = "/") (h2 : strEndsWith originalPathname "/" = false) :
    staticRelativePath pathname originalPathname = ""
    ∧ joinPath root (staticRelativePath pathname originalPathname) = root := by
  subst h1
  unfold staticRelativePath
  rw [if_pos ⟨rfl, by simp [h2]⟩]
  exact ⟨rfl, rfl⟩

/-- C8 witness at `pathname = "/"`, original URL `/assets`, root `/www`. -/
theorem C8_static_mount_root_special_case_witness :
    staticRelativePath "/" "/assets" = ""
    ∧ joinPath "/www" (staticRelativePath "/" "/assets") = "/www" :=
  C8_static_mount_root_special_case "/" "/assets" "/www" rfl (by decide)

/-- C9: evaluating the code at the failing input.  First conjunct: for a
GET of a directory without a trailing slash with `redirect` enabled, the
handler invokes the redirect listener as a plain function call, so inside
the listener `this` is `undefined` and `original(this.req)` throws a
`TypeError` — no 301 is produced.  Second conjunct: the same listener with
`this` bound to the request (the clear intent, and what the claim
describes) responds 301 with the original pathname (leading slashes
collapsed) plus a trailing slash as `Location`,
`Content-Security-Policy: default-src 'none'`,
`X-Content-Type-Options: nosniff`, and the minimal HTML body. -/
theorem C9_directory_redirect_throws_typeError :
    (serveStaticHandler [("/www/assets", { isDirectory := true })] {} "/www" {}
        { pathname := "/assets", originalUrl := { pathname := "/assets" } } {} =
      .error (.typeError "Cannot read property \x27req\x27 of undefined"))
    ∧ ((redirectListener {} {} (some { pathname := "//assets" }) {} false
          "/www/assets").map
        (fun p => (p.1.status, p.1.get "Location",
          p.1.get "Content-Security-Policy", p.1.get "X-Content-Type-Options",
          p.1.body, p.2)) =
      .ok (301, "/assets/", "default-src \x27none\x27", "nosniff",
        some (.str (createHtmlDocument "Redirecting"
          "Redirecting to <a href=\"/assets/\">/assets/</a>")), .responded)) :=
  ⟨rfl, rfl⟩

theorem end'_headers (r : Response) (b : Option Chunk) :
    (r.end' b).headers = r.headers := by
  unfold Response.end'
  cases b with
  | none => rfl
  | some c =>
      dsimp only
      cases hc : chunkTruthy c <;> simp [hc]

/-- The `sendCore` tail only touches the `content-type`, `etag`, `content-length`
and `transfer-encoding` headers. -/
theorem headersGet_sendCore_ne (app : AppSettings) (req : Req) (r : Response)
    (c : Chunk) (K : String)
    (hK1 : strLower K ≠ "content-type") (hK2 : strLower K ≠ "etag")
    (hK3 : strLower K ≠ "content-length") (hK4 : strLower K ≠ "transfer-encoding") :
    headersGet (r.sendCore app req c).headers K = headersGet r.headers K := by
  have hTS := headersGet_sendTypeStep_ne r c K hK1
  have hES := headersGet_sendEtagStep_ne app (sendTypeStep r c) c K hK2
  have hEr : headersGet (sendEtagStep app (sendTypeStep r c) c).headers K =
      headersGet r.headers K := hES.trans hTS
  have del : ∀ X : Response, headersGet X.headers K = headersGet r.headers K →
      headersGet (((X.unset "Content-Type").unset "Content-Length").unset
        "Transfer-Encoding").headers K = headersGet r.headers K := by
    intro X hX
    rw [headersGet_unset_ne _ "Transfer-Encoding" K
        (by rw [show strLower "Transfer-Encoding" = "transfer-encoding" from by decide]; exact hK4),
      headersGet_unset_ne _ "Content-Length" K
        (by rw [show strLower "Content-Length" = "content-length" from by decide]; exact hK3),
      headersGet_unset_ne _ "Content-Type" K
        (by rw [show strLower "Content-Type" = "content-type" from by decide]; exact hK1)]
    exact hX
  unfold Response.sendCore
  dsimp only
  split <;> rw [end'_headers] <;> split <;> split <;>
    first
      | exact del _ hEr
      | exact hEr

theorem headersGet_sendFileHeaderSteps_ne (app : AppSettings) (r : Response)
    (path : String) (fd : FileData) (K : String)
    (hK1 : strLower K ≠ "content-type") (hK2 : strLower K ≠ "etag")
    (hK5 : strLower K ≠ "last-modified") :
    headersGet (sendFileHeaderSteps app r path fd).headers K = headersGet r.headers K := by
  have hlm : strLower K ≠ strLower "Last-Modified" := by
    rw [show strLower "Last-Modified" = "last-modified" from by decide]
    exact hK5
  unfold sendFileHeaderSteps
  dsimp only
  split <;> split <;> split <;>
    simp only [fun (x : Response) t => headersGet_type_ne x t contentTypeImpl K hK1,
      fun (x : Response) c => headersGet_etag_ne app x c K hK2,
      fun (x : Response) v => headersGet_set_ne x "Last-Modified" v contentTypeImpl K hlm hK1]

/-- A successful `sendFile` leaves every header other than `content-type`,
`etag`, `content-length`, `transfer-encoding` and `last-modified`
untouched. -/
theorem headersGet_sendFile_ok (fs : FS) (app : AppSettings) (req : Req)
    (r : Response) (path : String) (K : String) (rOk : Response)
    (hK1 : strLower K ≠ "content-type") (hK2 : strLower K ≠ "etag")
    (hK3 : strLower K ≠ "content-length") (hK4 : strLower K ≠ "transfer-encoding")
    (hK5 : strLower K ≠ "last-modified")
    (hok : r.sendFile fs app req path = .ok rOk) :
    headersGet rOk.headers K = headersGet r.headers K := by
  unfold Response.sendFile at hok
  dsimp only at hok
  split at hok
  · exact absurd hok (by simp)
  · split at hok
    · exact absurd hok (by simp)
    · rw [Except.ok.injEq] at hok
      rw [← hok]
      rw [headersGet_sendCore_ne _ _ _ _ _ hK1 hK2 hK3 hK4]
      exact headersGet_sendFileHeaderSteps_ne app r _ _ K hK1 hK2 hK5

/-- C4: `download` sets a `Content-Disposition` attachment header before
delegating to `sendFile`.  If the transfer fails, the just-set header is
removed before the error propagates, so no attachment header remains on
the error path; on success, the attachment header set before the transfer
is still present on the finalized response. -/
theorem C4_download_contentDisposition (fs : FS) (app : AppSettings) (req : Req)
    (r : Response) (path : String) (filename : Option String) :
    (∀ msg rE, r.download fs app req path filename = .error (msg, rE) →
      headersGet rE.headers "Content-Disposition" = none)
    ∧ (∀ rOk, r.download fs app req path filename = .ok rOk →
      ∃ name, headersGet rOk.headers "Content-Disposition" =
        some (contentDisposition "attachment" name)) := by
  constructor
  · intro msg rE herr
    unfold Response.download at herr
    dsimp only at herr
    split at herr
    · exact absurd herr (by simp)
    · rw [Except.error.injEq, Prod.mk.injEq] at herr
      rw [← herr.2]
      exact headersGet_unset_self _ "Content-Disposition"
  · intro rOk hok
    unfold Response.download at hok
    dsimp only at hok
    generalize hname : (match filename with
      | some f => if f ≠ "" then f else path
      | none => path) = resolved at hok
    split at hok
    case _ r' heq =>
      rw [Except.ok.injEq] at hok
      refine ⟨pathBasename resolved, ?_⟩
      rw [← hok]
      rw [headersGet_sendFile_ok fs app req _ path "Content-Disposition" r'
        (by decide) (by decide) (by decide) (by decide) (by decide) heq]
      exact headersGet_set_self_other r "Content-Disposition" _ contentTypeImpl (by decide)
    case _ p =>
      exact absurd hok (by simp)

theorem strToList_append (a b : String) : (a ++ b).toList = a.toList ++ b.toList := rfl

theorem headersGet_key_congr (h : HeadersT) (k1 k2 : String)
    (hk : strLower k1 = strLower k2) : headersGet h k1 = headersGet h k2 := by
  unfold headersGet
  rw [hk]

/-- C10: `set` lowercases the field and stores raw values under it, except
`content-type`, which is delegated to `type` and stores the MIME lookup's
result (or the empty string when the lookup fails) — never the caller's
raw value; `get` looks up the lowercased field and yields the empty
string when the header is absent. -/
theorem C10_set_type_get_contract (r : Response) (field value : String)
    (ct : String → Option String) :
    (strLower field = "content-type" →
      headersGet (r.set field value ct).headers "Content-Type" =
        some ((ct value).getD ""))
    ∧ (strLower field ≠ "content-type" →
      headersGet (r.set field value ct).headers field = some value
      ∧ (r.set field value ct).get field = value)
    ∧ (headersGet r.headers field = none → r.get field = "") := by
  refine ⟨?_, ?_, ?_⟩
  · intro hf
    exact headersGet_set_ct r field value ct hf
  · intro hf
    refine ⟨headersGet_set_self_other r field value ct hf, ?_⟩
    unfold Response.get
    rw [headersGet_set_self_other r field value ct hf]
    rfl
  · intro hnone
    unfold Response.get
    rw [hnone]
    rfl

/-- C10 witness: `set "Content-Type" "html"` stores the MIME lookup's
full type rather than `"html"`; a custom header round-trips through
lowercased storage; `get` of an absent header is the empty string. -/
theorem C10_set_type_get_contract_witness :
    (headersGet ((({} : Response).set "Content-Type" "html" contentTypeImpl).headers)
        "Content-Type" = some "text/html; charset=utf-8")
    ∧ (headersGet ((({} : Response).set "X-Foo" "bar" contentTypeImpl).headers)
        "X-Foo" = some "bar")
    ∧ ((({} : Response).set "X-Foo" "bar" contentTypeImpl).headers = [("x-foo", "bar")])
    ∧ (({} : Response).get "Content-Disposition" = "") := by
  refine ⟨?_, ?_, by decide, ?_⟩
  · exact (C10_set_type_get_contract {} "Content-Type" "html" contentTypeImpl).1 (by decide)
  · exact ((C10_set_type_get_contract {} "X-Foo" "bar" contentTypeImpl).2.1 (by decide)).1
  · exact (C10_set_type_get_contract {} "Content-Disposition" "" contentTypeImpl).2.2 rfl

theorem splitOnChar_append_sep (sep : Char) (l r : List Char) :
    ∃ p0 ps, splitOnChar sep (l ++ sep :: r) = p0 :: (ps ++ splitOnChar sep r) := by
  induction l with
  | nil =>
      refine ⟨[], [], ?_⟩
      simp [splitOnChar]
  | cons c t ih =>
      obtain ⟨p0, ps, hp⟩ := ih
      by_cases hc : c = sep
      · refine ⟨[], p0 :: ps, ?_⟩
        simp only [List.cons_append, splitOnChar, if_pos hc, List.append_eq, hp]
      · refine ⟨c :: p0, ps, ?_⟩
        simp only [List.cons_append, splitOnChar, if_neg hc, List.append_eq, hp]

theorem VaryCovers_congr (h1 h2 : HeadersT) (f : String)
    (he : headersGet h1 "vary" = headersGet h2 "vary") :
    VaryCovers h1 f ↔ VaryCovers h2 f := by
  unfold VaryCovers
  rw [he]

/-- The `vary` collaborator leaves `Accept` covered by the `Vary` header
in every case. -/
theorem varyAdd_covers_accept (h : HeadersT) :
    VaryCovers (varyAdd h "Accept") "Accept" := by
  unfold varyAdd
  cases hv : headersGet h "vary" with
  | none =>
      unfold VaryCovers
      rw [headersGet_headersSet_self]
      exact Or.inl (by decide)
  | some cur =>
      dsimp only
      by_cases hcur : cur = ""
      · rw [if_pos hcur]
        unfold VaryCovers
        rw [headersGet_headersSet_self]
        exact Or.inl (by decide)
      · rw [if_neg hcur]
        by_cases hmem : strLower "Accept" ∈ (varyTokens cur).map strLower
            ∨ "*" ∈ varyTokens cur
        · rw [if_pos hmem]
          unfold VaryCovers
          rw [hv]
          exact hmem
        · rw [if_neg hmem]
          unfold VaryCovers
          rw [headersGet_headersSet_self]
          refine Or.inl ?_
          obtain ⟨p0, ps, hsplit⟩ := splitOnChar_append_sep ',' cur.toList
            (" Accept".toList)
          have htl : (cur ++ ", " ++ "Accept").toList =
              cur.toList ++ ',' :: (" Accept".toList) := by
            rw [strToList_append, strToList_append, List.append_assoc]
            rfl
          show strLower "Accept" ∈ (varyTokens (cur ++ ", " ++ "Accept")).map strLower
          unfold varyTokens splitCommaChars
          rw [htl, hsplit]
          have hr : splitOnChar ',' (" Accept".toList) = [" Accept".toList] := by decide
          rw [hr]
          have hmem0 : (" Accept".toList) ∈ p0 :: (ps ++ [" Accept".toList]) :=
            List.mem_cons_of_mem _ (List.mem_append_right _ (List.mem_singleton.mpr rfl))
          have hval : strLower "Accept" =
              strLower (strTrim (String.mk (" Accept".toList))) := by decide
          rw [hval]
          exact List.mem_map_of_mem _ (List.mem_map_of_mem _ hmem0)

/-- C6: `format` always leaves `Accept` covered by the `Vary` header; on
a negotiation match it sets the Content-Type from the normalized key (via
the MIME lookup, see `Response.set`) and invokes the matched handler; on
no match it invokes the reserved `default` handler when present, and
otherwise passes a 406 "Not Acceptable" error carrying the normalized
offered types to the error continuation. -/
theorem C6_format_negotiation (accepts : List String → Option String)
    (r : Response) (h : FormatHandlers) :
    VaryCovers (Response.format accepts r h).1.headers "Accept"
    ∧ (∀ k, (if h.keys.length > 0 then accepts h.keys else none) = some k →
        (Response.format accepts r h).2 = .invoked k
        ∧ headersGet (Response.format accepts r h).1.headers "Content-Type" =
            some ((contentTypeImpl (normalizeTypeValue k)).getD ""))
    ∧ ((if h.keys.length > 0 then accepts h.keys else none) = none →
        h.hasDefault = true → (Response.format accepts r h).2 = .invokedDefault)
    ∧ ((if h.keys.length > 0 then accepts h.keys else none) = none →
        h.hasDefault = false →
        (Response.format accepts r h).2 = .nextError 406 (normalizeTypes h.keys)) := by
  unfold Response.format
  dsimp only
  cases hkey : (if h.keys.length > 0 then accepts h.keys else none) with
  | some k =>
      refine ⟨?_, ?_, ?_, ?_⟩
      · refine (VaryCovers_congr _ _ "Accept" ?_).mpr (varyAdd_covers_accept r.headers)
        exact headersGet_set_ne (r.vary "Accept") "Content-Type"
          (normalizeTypeValue k) contentTypeImpl "vary" (by decide) (by decide)
      · intro k' hk'
        rw [Option.some.injEq] at hk'
        subst hk'
        exact ⟨rfl, headersGet_set_ct (r.vary "Accept") "Content-Type"
          (normalizeTypeValue k) contentTypeImpl (by decide)⟩
      · intro hnone
        exact absurd hnone (by simp)
      · intro hnone
        exact absurd hnone (by simp)
  | none =>
      cases hd : h.hasDefault with
      | true =>
          refine ⟨varyAdd_covers_accept r.headers, ?_, ?_, ?_⟩
          · intro k' hk'
            exact absurd hk' (by simp)
          · intro _ _
            rfl
          · intro _ hfalse
            exact absurd hfalse (by simp)
      | false =>
          refine ⟨varyAdd_covers_accept r.headers, ?_, ?_, ?_⟩
          · intro k' hk'
            exact absurd hk' (by simp)
          · intro _ htrue
            exact absurd htrue (by simp)
          · intro _ _
            rfl

/-- C6 witness at the spec's example: `format({json, html})` with a
negotiation matching `html` invokes the html handler and sets
Content-Type; with nothing acceptable and no `default`, a 406 carrying
`["application/json", "text/html"]` goes to the error continuation; the
Vary header covers `Accept`. -/
theorem C6_format_negotiation_witness :
    ((Response.format (fun ks => if ks.contains "html" then some "html" else none)
        {} ⟨["json", "html"], false⟩).2 = .invoked "html"
      ∧ headersGet (Response.format
          (fun ks => if ks.contains "html" then some "html" else none)
          {} ⟨["json", "html"], false⟩).1.headers "Content-Type" =
        some "text/html; charset=utf-8")
    ∧ (Response.format (fun _ => none) {} ⟨["json", "html"], false⟩).2 =
        .nextError 406 ["application/json", "text/html"]
    ∧ VaryCovers (Response.format (fun _ => none) {}
        ⟨["json", "html"], false⟩).1.headers "Accept" := by
  refine ⟨?_, ?_, ?_⟩
  · have hm := (C6_format_negotiation
      (fun ks => if ks.contains "html" then some "html" else none)
      {} ⟨["json", "html"], false⟩).2.1 "html" (by decide)
    exact ⟨hm.1, hm.2⟩
  · exact (C6_format_negotiation (fun _ => none) {}
      ⟨["json", "html"], false⟩).2.2.2 (by decide) rfl
  · exact (C6_format_negotiation (fun _ => none) {} ⟨["json", "html"], false⟩).1

/-- Calling `json` on a response with no content-type and a plain request
transmits exactly one response whose body is the serialized JSON and
whose content-type is the JSON MIME type. -/
theorem json_normal (app : AppSettings) (req : Req) (r : Response) (j : Json)
    (hct : r.get "Content-Type" = "") (hfresh : req.fresh = false)
    (hmethod : req.method ≠ "HEAD") (h204 : r.status ≠ 204) (h304 : r.status ≠ 304) :
    ∃ tx : Transmitted,
      (r.json app req j).sent = r.sent ++ [tx]
      ∧ tx.status = r.status
      ∧ tx.body = some (.str (stringify j))
      ∧ headersGet tx.headers "Content-Type" = some "application/json; charset=utf-8" := by
  unfold Response.json
  dsimp only
  rw [if_pos hct]
  have hr1ct : (r.type "application/json" contentTypeImpl).get "Content-Type" ≠ "" := by
    show ((headersGet (r.type "application/json" contentTypeImpl).headers
      "content-type").getD "") ≠ ""
    rw [headersGet_type_self]
    decide
  have hts : sendTypeStep (r.type "application/json" contentTypeImpl)
      (.str (stringify j)) = r.type "application/json" contentTypeImpl := by
    unfold sendTypeStep
    rw [if_neg hr1ct]
  have hsc := sendCore_normal app req (r.type "application/json" contentTypeImpl)
    (.str (stringify j)) hfresh hmethod h204 h304
  rw [hsc, hts]
  obtain ⟨hs2, hb2, hn2⟩ := sendEtagStep_fields app
    (r.type "application/json" contentTypeImpl) (.str (stringify j))
  have htruthy : chunkTruthy (.str (stringify j)) = true := by
    unfold chunkTruthy stringify
    simp [jsonEncode_ne_empty j]
  rw [end'_some_truthy _ _ htruthy]
  refine ⟨⟨(sendEtagStep app (r.type "application/json" contentTypeImpl)
      (.str (stringify j))).status,
    (sendEtagStep app (r.type "application/json" contentTypeImpl)
      (.str (stringify j))).headers,
    some (.str (stringify j))⟩, ?_, ?_, rfl, ?_⟩
  · dsimp only
    rw [hn2]
    rfl
  · dsimp only
    rw [hs2]
    rfl
  · dsimp only
    rw [headersGet_key_congr _ "Content-Type" "content-type" (by decide),
      headersGet_sendEtagStep_ne app _ _ "content-type" (by decide)]
    exact headersGet_type_self r "application/json" contentTypeImpl

/-- Running `sendCore` on a non-empty string chunk, when a content-type is
already present and the request is plain, transmits exactly one response
carrying the chunk, preserving every header other than `etag`. -/
theorem sendCore_str_normal (app : AppSettings) (req : Req) (r1 : Response)
    (s : String) (hs : s ≠ "") (hct1 : r1.get "Content-Type" ≠ "")
    (hfresh : req.fresh = false) (hmethod : req.method ≠ "HEAD")
    (h204 : r1.status ≠ 204) (h304 : r1.status ≠ 304) :
    ∃ tx : Transmitted,
      (r1.sendCore app req (.str s)).sent = r1.sent ++ [tx]
      ∧ tx.status = r1.status
      ∧ tx.body = some (.str s)
      ∧ (∀ K, strLower K ≠ "etag" →
          headersGet tx.headers K = headersGet r1.headers K) := by
  have hts : sendTypeStep r1 (.str s) = r1 := by
    unfold sendTypeStep
    rw [if_neg hct1]
  have hsc := sendCore_normal app req r1 (.str s) hfresh hmethod h204 h304
  rw [hsc, hts]
  obtain ⟨hs2, hb2, hn2⟩ := sendEtagStep_fields app r1 (.str s)
  have htruthy : chunkTruthy (.str s) = true := by
    unfold chunkTruthy
    simp [hs]
  rw [end'_some_truthy _ _ htruthy]
  refine ⟨⟨(sendEtagStep app r1 (.str s)).status,
    (sendEtagStep app r1 (.str s)).headers, some (.str s)⟩, ?_, ?_, rfl, ?_⟩
  · dsimp only
    rw [hn2]
  · dsimp only
    rw [hs2]
  · intro K hK
    exact headersGet_sendEtagStep_ne app r1 (.str s) K hK

/-- The JSON value that `send` routes to `this.json(body)` for a given
body, when it does: booleans, numbers, and non-binary, non-reader object
values. -/
def Body.routedJson : Body → Option Json
  | .boolean b => some (.bool b)
  | .number n => some (.num n)
  | .jsObject j => some j
  | _ => none

/-- C2, counterexample: `send(null)` does not produce the JSON body
`"null"` — the classification switch evaluates
`typeof (body as Deno.Reader).read`, a property access on `null`, which
throws a `TypeError`; nothing is transmitted. -/
theorem C2_send_null_throws_typeError :
    Response.send {} {} {} (.jsObject .null) =
      .error (.typeError "Cannot read property \x27read\x27 of null") := rfl

/-- C2, amended: for every body value that is not a string, `Uint8Array`,
byte-stream reader — and not `null`, on which `send` throws — `send(body)`
transmits the JSON-encoded body with the JSON content-type set when none
was set. -/
theorem C2_send_json_encodes (app : AppSettings) (req : Req) (r : Response)
    (b : Body) (j : Json)
    (hb : b.routedJson = some j) (hnull : j ≠ Json.null)
    (hct : r.get "Content-Type" = "") (hfresh : req.fresh = false)
    (hmethod : req.method ≠ "HEAD") (h204 : r.status ≠ 204) (h304 : r.status ≠ 304) :
    ∃ (r' : Response) (tx : Transmitted),
      r.send app req b = .ok r'
      ∧ r'.sent = r.sent ++ [tx]
      ∧ tx.body = some (.str (stringify j))
      ∧ headersGet tx.headers "Content-Type" = some "application/json; charset=utf-8" := by
  obtain ⟨tx, hsent, _, hbody, hctx⟩ := json_normal app req r j hct hfresh hmethod h204 h304
  cases b with
  | str s => exact absurd hb (by simp [Body.routedJson])
  | binary bs => exact absurd hb (by simp [Body.routedJson])
  | reader id => exact absurd hb (by simp [Body.routedJson])
  | boolean bb =>
      have hj : Json.bool bb = j := by simpa [Body.routedJson] using hb
      subst hj
      exact ⟨r.json app req (.bool bb), tx, rfl, hsent, hbody, hctx⟩
  | number n =>
      have hj : Json.num n = j := by simpa [Body.routedJson] using hb
      subst hj
      exact ⟨r.json app req (.num n), tx, rfl, hsent, hbody, hctx⟩
  | jsObject j0 =>
      have hj : j0 = j := by simpa [Body.routedJson] using hb
      subst hj
      refine ⟨r.json app req j0, tx, ?_, hsent, hbody, hctx⟩
      unfold Response.send
      cases j0 with
      | null => exact absurd rfl hnull
      | bool b => rfl
      | num n => rfl
      | str s => rfl
      | arr es => rfl
      | obj fs => rfl

/-- C2 witness at `send(42)` on a fresh exchange: one transmission with
body `"42"` and the JSON content-type. -/
theorem C2_send_json_encodes_witness :
    ∃ (r' : Response) (tx : Transmitted),
      Response.send {} {} {} (.number 42) = .ok r'
      ∧ r'.sent = ({} : Response).sent ++ [tx]
      ∧ tx.body = some (.str (stringify (.num 42)))
      ∧ headersGet tx.headers "Content-Type" = some "application/json; charset=utf-8" :=
  C2_send_json_encodes {} {} {} (.number 42) (.num 42) rfl
    (fun h => Json.noConfusion h) rfl rfl (by decide) (by decide) (by decide)

theorem sendCore_fresh_after_pre (app : AppSettings) (req : Req)
    (r rp : Response) (c : Chunk)
    (hsent : rp.sent = r.sent) (hbody : rp.body = r.body)
    (hfresh : req.fresh = true) :
    ∃ H : HeadersT,
      (rp.sendCore app req c).sent = r.sent ++ [⟨304, H, r.body⟩]
      ∧ headersGet H "Content-Type" = none
      ∧ headersGet H "Content-Length" = none
      ∧ headersGet H "Transfer-Encoding" = none := by
  obtain ⟨H, heq, h1, h2, h3⟩ := sendCore_fresh app req rp c hfresh
  refine ⟨H, ?_, h1, h2, h3⟩
  rw [heq]
  dsimp only
  rw [hsent, hbody]

/-- C3, counterexample: the spec's own example — `res.json({a:1})` on a
fresh-matching request — with a previously populated body slot transmits
status 304 with the entity headers removed, but the transmitted body is
the stale slot content, not empty: `end` treats the empty-string chunk as
falsy and does not overwrite `this.body`. -/
theorem C3_fresh_304_stale_body_counterexample :
    (Response.json {} { fresh := true } { body := some (.str "stale") }
        (.obj [("a", .num 1)])).sent =
      [⟨304, [], some (.str "stale")⟩]
    ∧ (some (Chunk.str "stale") ≠ (none : Option Chunk)) :=
  ⟨rfl, by simp⟩

/-- C3, amended: every send invocation that transmits forces status 304
when the request is fresh, and removes Content-Type, Content-Length and
Transfer-Encoding; the chunk passed to the terminal end is emptied, but
because `end` treats an empty-string body as absent, the transmitted body
slot is exactly the pre-existing one — empty only when that slot was not
previously populated. -/
theorem C3_fresh_forces_304_and_strips_entity (app : AppSettings) (req : Req)
    (r : Response) (b : Body) (r' : Response)
    (hok : r.send app req b = .ok r') (hfresh : req.fresh = true) :
    ∃ H : HeadersT,
      r'.sent = r.sent ++ [⟨304, H, r.body⟩]
      ∧ headersGet H "Content-Type" = none
      ∧ headersGet H "Content-Length" = none
      ∧ headersGet H "Transfer-Encoding" = none := by
  cases b with
  | str s =>
      unfold Response.send at hok
      rw [Except.ok.injEq] at hok
      subst hok
      exact sendCore_fresh_after_pre app req r r _ rfl rfl hfresh
  | binary bs =>
      unfold Response.send at hok
      dsimp only at hok
      rw [Except.ok.injEq] at hok
      subst hok
      exact sendCore_fresh_after_pre app req r _ _ (by split <;> rfl)
        (by split <;> rfl) hfresh
  | reader id =>
      unfold Response.send at hok
      dsimp only at hok
      rw [Except.ok.injEq] at hok
      subst hok
      exact sendCore_fresh_after_pre app req r _ _ (by split <;> rfl)
        (by split <;> rfl) hfresh
  | boolean bb =>
      unfold Response.send Response.json at hok
      dsimp only at hok
      rw [Except.ok.injEq] at hok
      subst hok
      exact sendCore_fresh_after_pre app req r _ _ (by split <;> rfl)
        (by split <;> rfl) hfresh
  | number n =>
      unfold Response.send Response.json at hok
      dsimp only at hok
      rw [Except.ok.injEq] at hok
      subst hok
      exact sendCore_fresh_after_pre app req r _ _ (by split <;> rfl)
        (by split <;> rfl) hfresh
  | jsObject j =>
      unfold Response.send at hok
      cases j with
      | null => exact absurd hok (by simp)
      | bool b =>
          unfold Response.json at hok
          dsimp only at hok
          rw [Except.ok.injEq] at hok
          subst hok
          exact sendCore_fresh_after_pre app req r _ _ (by split <;> rfl)
            (by split <;> rfl) hfresh
      | num n =>
          unfold Response.json at hok
          dsimp only at hok
          rw [Except.ok.injEq] at hok
          subst hok
          exact sendCore_fresh_after_pre app req r _ _ (by split <;> rfl)
            (by split <;> rfl) hfresh
      | str s =>
          unfold Response.json at hok
          dsimp only at hok
          rw [Except.ok.injEq] at hok
          subst hok
          exact sendCore_fresh_after_pre app req r _ _ (by split <;> rfl)
            (by split <;> rfl) hfresh
      | arr es =>
          unfold Response.json at hok
          dsimp only at hok
          rw [Except.ok.injEq] at hok
          subst hok
          exact sendCore_fresh_after_pre app req r _ _ (by split <;> rfl)
            (by split <;> rfl) hfresh
      | obj fs =>
          unfold Response.json at hok
          dsimp only at hok
          rw [Except.ok.injEq] at hok
          subst hok
          exact sendCore_fresh_after_pre app req r _ _ (by split <;> rfl)
            (by split <;> rfl) hfresh

/-- C3 witness: a fresh `send("hello")` on an empty response transmits a
single 304 with no entity headers and an (empty) untouched body slot. -/
theorem C3_fresh_forces_304_witness :
    ∃ r' : Response,
      Response.send {} { fresh := true } {} (.str "hello") = .ok r'
      ∧ ∃ H : HeadersT,
        r'.sent = ({} : Response).sent ++ [⟨304, H, ({} : Response).body⟩]
        ∧ headersGet H "Content-Type" = none
        ∧ headersGet H "Content-Length" = none
        ∧ headersGet H "Transfer-Encoding" = none := by
  refine ⟨_, rfl, ?_⟩
  exact C3_fresh_forces_304_and_strips_entity {} { fresh := true } {}
    (.str "hello") _ rfl rfl

theorem jsonpScriptBody_ne_empty (cb payload : String) :
    jsonpScriptBody cb payload ≠ "" := by
  have hlen : 0 < (jsonpScriptBody cb payload).length := by
    unfold jsonpScriptBody
    simp only [String.length_append]
    have : ("/**/ typeof " : String).length = 12 := by decide
    omega
  intro h
  rw [h] at hlen
  simp at hlen

theorem sanitizeJsonpCallback_safe (cb : String) :
    (sanitizeJsonpCallback cb).toList.all jsonpSafeChar = true := by
  unfold sanitizeJsonpCallback
  rw [List.all_eq_true]
  intro c hc
  have hc' : c ∈ cb.toList.filter jsonpSafeChar := hc
  exact (List.mem_filter.mp hc').2

/-- C7, counterexample: with no callback parameter but a content-type
already set, `jsonp` sets neither `X-Content-Type-Options: nosniff` nor a
JSON content-type — the claim's unconditional "sets nosniff and a JSON
content-type" fails. -/
theorem C7_jsonp_preset_content_type_counterexample :
    ((Response.jsonp {} {} (Response.type {} "html" contentTypeImpl) (.num 1)).get
        "X-Content-Type-Options" = "")
    ∧ ((Response.jsonp {} {} (Response.type {} "html" contentTypeImpl) (.num 1)).get
        "Content-Type" = "text/html; charset=utf-8")
    ∧ (Response.jsonp {} {} (Response.type {} "html" contentTypeImpl)
        (.num 1)).sent.length = 1 :=
  ⟨rfl, rfl, rfl⟩

/-- C7, amended: with a present, non-empty callback query parameter,
`jsonp` strips every character outside the safe identifier charset from
the callback, escapes the line/paragraph separators in the payload, wraps
it as the comment-guarded invocation script, and transmits it with the
script content-type and `X-Content-Type-Options: nosniff`.  With no such
parameter (absent or empty), it sets nosniff and the JSON content-type
only when no content-type was already set. -/
theorem C7_jsonp_callback_handling (app : AppSettings) (req : Req) (r : Response)
    (j : Json) (hfresh : req.fresh = false) (hmethod : req.method ≠ "HEAD")
    (h204 : r.status ≠ 204) (h304 : r.status ≠ 304) :
    (∀ cb, jsonpCallbackValue (qfind req.query app.jsonpCallbackName) = some cb →
      cb ≠ "" →
      ∃ tx : Transmitted,
        (r.jsonp app req j).sent = r.sent ++ [tx]
        ∧ tx.body = some (.str (jsonpScriptBody cb (stringify j)))
        ∧ headersGet tx.headers "Content-Type" = some "text/javascript; charset=utf-8"
        ∧ headersGet tx.headers "X-Content-Type-Options" = some "nosniff"
        ∧ (sanitizeJsonpCallback cb).toList.all jsonpSafeChar = true)
    ∧ ((jsonpCallbackValue (qfind req.query app.jsonpCallbackName) = none
        ∨ jsonpCallbackValue (qfind req.query app.jsonpCallbackName) = some "") →
      r.get "Content-Type" = "" →
      ∃ tx : Transmitted,
        (r.jsonp app req j).sent = r.sent ++ [tx]
        ∧ tx.body = some (.str (stringify j))
        ∧ headersGet tx.headers "Content-Type" = some "application/json; charset=utf-8"
        ∧ headersGet tx.headers "X-Content-Type-Options" = some "nosniff") := by
  constructor
  · intro cb hcb hne
    unfold Response.jsonp
    dsimp only
    rw [hcb]
    dsimp only
    have hlen : cb.length ≠ 0 := by
      intro h0
      apply hne
      cases cb with
      | mk l =>
          have hl : l = [] := List.length_eq_zero.mp h0
          rw [hl]
    rw [if_pos hlen]
    have hsf := set_fields r "X-Content-Type-Options" "nosniff" contentTypeImpl
    have hct1 : ((r.set "X-Content-Type-Options" "nosniff" contentTypeImpl).type
        "text/javascript" contentTypeImpl).get "Content-Type" ≠ "" := by
      show ((headersGet _ "content-type").getD "") ≠ ""
      rw [headersGet_type_self]
      decide
    obtain ⟨tx, htx, hst, hbody, hpres⟩ := sendCore_str_normal app req
      ((r.set "X-Content-Type-Options" "nosniff" contentTypeImpl).type
        "text/javascript" contentTypeImpl)
      (jsonpScriptBody cb (stringify j)) (jsonpScriptBody_ne_empty cb _) hct1
      hfresh hmethod (by show (r.set _ _ _).status ≠ 204; rw [hsf.1]; exact h204)
      (by show (r.set _ _ _).status ≠ 304; rw [hsf.1]; exact h304)
    refine ⟨tx, ?_, hbody, ?_, ?_, sanitizeJsonpCallback_safe cb⟩
    · rw [htx]
      show (r.set _ _ _).sent ++ [tx] = r.sent ++ [tx]
      rw [hsf.2.2]
    · rw [headersGet_key_congr tx.headers "Content-Type" "content-type" (by decide),
        hpres "content-type" (by decide)]
      exact headersGet_type_self _ "text/javascript" contentTypeImpl
    · rw [hpres "X-Content-Type-Options" (by decide)]
      rw [headersGet_type_ne _ "text/javascript" contentTypeImpl
        "X-Content-Type-Options" (by decide)]
      exact headersGet_set_self_other r "X-Content-Type-Options" "nosniff"
        contentTypeImpl (by decide)
  · intro hcb hct
    have key : ∃ tx : Transmitted,
        (((r.set "X-Content-Type-Options" "nosniff" contentTypeImpl).set
          "Content-Type" "application/json" contentTypeImpl).sendCore app req
            (.str (stringify j))).sent = r.sent ++ [tx]
        ∧ tx.body = some (.str (stringify j))
        ∧ headersGet tx.headers "Content-Type" = some "application/json; charset=utf-8"
        ∧ headersGet tx.headers "X-Content-Type-Options" = some "nosniff" := by
      have hsf := set_fields r "X-Content-Type-Options" "nosniff" contentTypeImpl
      have hsf2 := set_fields (r.set "X-Content-Type-Options" "nosniff" contentTypeImpl)
        "Content-Type" "application/json" contentTypeImpl
      have hct2 : ((r.set "X-Content-Type-Options" "nosniff" contentTypeImpl).set
          "Content-Type" "application/json" contentTypeImpl).get "Content-Type" ≠ "" := by
        show ((headersGet _ "content-type").getD "") ≠ ""
        rw [headersGet_set_ct _ "Content-Type" "application/json" contentTypeImpl
          (by decide)]
        decide
      obtain ⟨tx, htx, hst, hbody, hpres⟩ := sendCore_str_normal app req
        ((r.set "X-Content-Type-Options" "nosniff" contentTypeImpl).set
          "Content-Type" "application/json" contentTypeImpl)
        (stringify j) (jsonEncode_ne_empty j) hct2 hfresh hmethod
        (by rw [hsf2.1, hsf.1]; exact h204)
        (by rw [hsf2.1, hsf.1]; exact h304)
      refine ⟨tx, ?_, hbody, ?_, ?_⟩
      · rw [htx, hsf2.2.2, hsf.2.2]
      · rw [headersGet_key_congr tx.headers "Content-Type" "content-type" (by decide),
          hpres "content-type" (by decide)]
        exact headersGet_set_ct _ "Content-Type" "application/json" contentTypeImpl
          (by decide)
      · rw [hpres "X-Content-Type-Options" (by decide)]
        rw [headersGet_set_ne _ "Content-Type" "application/json" contentTypeImpl
          "X-Content-Type-Options" (by decide) (by decide)]
        exact headersGet_set_self_other r "X-Content-Type-Options" "nosniff"
          contentTypeImpl (by decide)
    rcases hcb with hnone | hempty
    · unfold Response.jsonp
      dsimp only
      rw [hnone]
      dsimp only
      rw [if_pos hct]
      exact key
    · unfold Response.jsonp
      dsimp only
      rw [hempty]
      dsimp only
      rw [if_neg (by decide : ¬(("" : String).length ≠ 0))]
      rw [if_pos hct]
      exact key

/-- C7 witness: a `callback=cb!name` query parameter yields the guarded
script (sanitized to `cbname`) with nosniff and the script content-type;
no callback parameter with no preset content-type yields the JSON body
with nosniff and the JSON content-type. -/
theorem C7_jsonp_callback_handling_witness :
    (∃ tx : Transmitted,
      (Response.jsonp {} { query := [("callback", .one "cb!name")] } {}
          (.str "x")).sent = ({} : Response).sent ++ [tx]
      ∧ tx.body = some (.str (jsonpScriptBody "cb!name" (stringify (.str "x"))))
      ∧ headersGet tx.headers "Content-Type" = some "text/javascript; charset=utf-8"
      ∧ headersGet tx.headers "X-Content-Type-Options" = some "nosniff"
      ∧ (sanitizeJsonpCallback "cb!name").toList.all jsonpSafeChar = true)
    ∧ (∃ tx : Transmitted,
      (Response.jsonp {} {} {} (.str "x")).sent = ({} : Response).sent ++ [tx]
      ∧ tx.body = some (.str (stringify (.str "x")))
      ∧ headersGet tx.headers "Content-Type" = some "application/json; charset=utf-8"
      ∧ headersGet tx.headers "X-Content-Type-Options" = some "nosniff") := by
  constructor
  · exact (C7_jsonp_callback_handling {} { query := [("callback", .one "cb!name")] }
      {} (.str "x") rfl (by decide) (by decide) (by decide)).1 "cb!name" rfl (by decide)
  · exact (C7_jsonp_callback_handling {} {} {} (.str "x") rfl (by decide) (by decide)
      (by decide)).2 (Or.inl rfl) rfl

/-- C4 witness: a download of a missing file propagates the error with no
`Content-Disposition` left behind; a download of a present file succeeds
with the attachment header in place. -/
theorem C4_download_contentDisposition_witness :
    (∃ rE : Response,
      Response.download ([] : FS) {} {} {} "/x/report.pdf" none =
        .error ("NotFound: /x/report.pdf", rE)
      ∧ headersGet rE.headers "Content-Disposition" = none)
    ∧ (∃ rOk : Response,
      Response.download [("/x/report.pdf", { bytes := [1, 2], size := 2, mtime := some 7 })]
          {} {} {} "/x/report.pdf" none = .ok rOk
      ∧ ∃ name, headersGet rOk.headers "Content-Disposition" =
          some (contentDisposition "attachment" name)) := by
  constructor
  · refine ⟨_, rfl, ?_⟩
    exact (C4_download_contentDisposition [] {} {} {} "/x/report.pdf" none).1 _ _ rfl
  · refine ⟨_, rfl, ?_⟩
    exact (C4_download_contentDisposition
      [("/x/report.pdf", { bytes := [1, 2], size := 2, mtime := some 7 })]
      {} {} {} "/x/report.pdf" none).2 _ rfl
